import Mathlib

/-!
Verification of the XLNet forward-pass implementation in
`paddlenlp/transformers/xlnet/modeling.py` against its natural-language
specification.  Tensors are shallowly embedded as a shape together with a
total index function; `paddle.reshape` is modelled as the row-major
reinterpretation of the flat buffer, guarded by the element-count check that
paddle performs (a mismatch raises, modelled as `none`).  Machine floats are
modelled as exact reals (`ℝ`) where transcendental functions occur and as
rationals (`ℚ`) where decidability is wanted; `nn.Dropout` is modelled in
evaluation mode (identity).
-/

set_option maxHeartbeats 1000000

/-- Rank-4 tensor: four extents and a total index function (values outside
the extents are irrelevant junk, as in a flat buffer). -/
structure T4 (α : Type) where
  d0 : ℕ
  d1 : ℕ
  d2 : ℕ
  d3 : ℕ
  f : ℕ → ℕ → ℕ → ℕ → α

/-- Number of elements of a rank-4 tensor. -/
def T4.numel {α : Type} (t : T4 α) : ℕ := t.d0 * t.d1 * t.d2 * t.d3

/-- Element at a row-major flat position. -/
def T4.flatGet {α : Type} (t : T4 α) (m : ℕ) : α :=
  t.f (m / (t.d1 * t.d2 * t.d3)) (m / (t.d2 * t.d3) % t.d1) (m / t.d3 % t.d2) (m % t.d3)

/-- Row-major flat position of a rank-4 multi-index (only the trailing three
extents matter). -/
def flatIdx (b c d : ℕ) (i0 i1 i2 i3 : ℕ) : ℕ := ((i0 * b + i1) * c + i2) * d + i3

/-- Unguarded row-major reshape of a rank-4 tensor to the given extents. -/
def reshapeF {α : Type} (t : T4 α) (a b c d : ℕ) : T4 α :=
  ⟨a, b, c, d, fun i0 i1 i2 i3 => t.flatGet (flatIdx b c d i0 i1 i2 i3)⟩

/-- Model of `paddle.reshape`: the element counts must agree, else paddle
raises (modelled as `none`). -/
def reshape4 {α : Type} (t : T4 α) (a b c d : ℕ) : Option (T4 α) :=
  if t.numel = a * b * c * d then some (reshapeF t a b c d) else none

/-- Model of the slice `x[:, :, 1:, :]`: drop the first hyper-row along
axis 2. -/
def dropFirstAxis2 {α : Type} (t : T4 α) : T4 α :=
  ⟨t.d0, t.d1, t.d2 - 1, t.d3, fun i0 i1 i2 i3 => t.f i0 i1 (i2 + 1) i3⟩

/-- Unguarded selection of the first `k` indices along the last axis. -/
def indexSelectF {α : Type} (t : T4 α) (k : ℕ) : T4 α :=
  ⟨t.d0, t.d1, t.d2, k, t.f⟩

/-- Model of `paddle.index_select(x, index=paddle.arange(klen), axis=3)`:
every index must be in range, else paddle raises (modelled as `none`). -/
def indexSelectLastFirstK {α : Type} (t : T4 α) (k : ℕ) : Option (T4 α) :=
  if k ≤ t.d3 then some (indexSelectF t k) else none

/-- Embedding of `XLNetRelativeAttention.rel_shift_bnij`: reshape
`[b, n, q, p]` to `[b, n, p, q]`, drop the first row along the new axis 2,
reshape to `[b, n, q, p-1]`, then keep the first `klen` entries of the last
axis. -/
def rel_shift_bnij {α : Type} (x : T4 α) (klen : ℕ) : Option (T4 α) := do
  let y ← reshape4 x x.d0 x.d1 x.d3 x.d2
  let z := dropFirstAxis2 y
  let w ← reshape4 z x.d0 x.d1 x.d2 (x.d3 - 1)
  indexSelectLastFirstK w klen

/-- Total composition of the four steps of `rel_shift_bnij` (the guards of
the two reshapes always hold, and the final guard holds when
`klen ≤ x.d3 - 1`). -/
def relShiftT {α : Type} (x : T4 α) (klen : ℕ) : T4 α :=
  indexSelectF
    (reshapeF (dropFirstAxis2 (reshapeF x x.d0 x.d1 x.d3 x.d2)) x.d0 x.d1 x.d2 (x.d3 - 1))
    klen

lemma rel_shift_bnij_eq_some {α : Type} (x : T4 α) (klen : ℕ) (hk : klen ≤ x.d3 - 1) :
    rel_shift_bnij x klen = some (relShiftT x klen) := by
  have h1 : x.numel = x.d0 * x.d1 * x.d3 * x.d2 := by
    unfold T4.numel; ring
  have h2 : (dropFirstAxis2 (reshapeF x x.d0 x.d1 x.d3 x.d2)).numel
      = x.d0 * x.d1 * x.d2 * (x.d3 - 1) := by
    show x.d0 * x.d1 * (x.d3 - 1) * x.d2 = x.d0 * x.d1 * x.d2 * (x.d3 - 1)
    ring
  have hk2 : klen ≤ (reshapeF (dropFirstAxis2 (reshapeF x x.d0 x.d1 x.d3 x.d2))
      x.d0 x.d1 x.d2 (x.d3 - 1)).d3 := hk
  unfold rel_shift_bnij relShiftT reshape4 indexSelectLastFirstK
  rw [if_pos h1]
  simp only [Option.bind_eq_bind, Option.some_bind]
  rw [if_pos h2]
  simp only [Option.bind_eq_bind, Option.some_bind]
  rw [if_pos hk2]

lemma flatGet_of_d1_one {α : Type} (t : T4 α) (h1 : t.d1 = 1) (m : ℕ)
    (hm : m < t.d2 * t.d3) : t.flatGet m = t.f 0 0 (m / t.d3) (m % t.d3) := by
  unfold T4.flatGet
  rw [h1]
  have hlt : m / (t.d2 * t.d3) = 0 := Nat.div_eq_of_lt hm
  have hdiv : m / t.d3 < t.d2 := Nat.div_lt_of_lt_mul (by rw [mul_comm] at hm; exact hm)
  rw [one_mul, hlt, Nat.zero_mod, Nat.mod_eq_of_lt hdiv]

lemma relShiftT_value {α : Type} (x : T4 α) (k i j : ℕ) (h1 : x.d1 = 1)
    (hi : i < x.d2) (hj : j < k) (hk : k ≤ x.d3 - 1) (hrow : x.d2 - i + j < x.d3) :
    (relShiftT x k).f 0 0 i j = x.f 0 0 i (x.d2 - i + j) := by
  have hjp : j < x.d3 - 1 := lt_of_lt_of_le hj hk
  have hp1 : 0 < x.d3 := by omega
  have hmlt : i * (x.d3 - 1) + j < (x.d3 - 1) * x.d2 := by
    calc i * (x.d3 - 1) + j < i * (x.d3 - 1) + (x.d3 - 1) := Nat.add_lt_add_left hjp _
      _ = (i + 1) * (x.d3 - 1) := by ring
      _ ≤ x.d2 * (x.d3 - 1) := Nat.mul_le_mul_right _ hi
      _ = (x.d3 - 1) * x.d2 := by ring
  have step1 : (relShiftT x k).f 0 0 i j
      = (dropFirstAxis2 (reshapeF x x.d0 x.d1 x.d3 x.d2)).flatGet (i * (x.d3 - 1) + j) := by
    show (dropFirstAxis2 (reshapeF x x.d0 x.d1 x.d3 x.d2)).flatGet
        (flatIdx x.d1 x.d2 (x.d3 - 1) 0 0 i j) = _
    congr 1
    unfold flatIdx
    ring
  have step2 : (dropFirstAxis2 (reshapeF x x.d0 x.d1 x.d3 x.d2)).flatGet (i * (x.d3 - 1) + j)
      = x.flatGet (((i * (x.d3 - 1) + j) / x.d2 + 1) * x.d2 + (i * (x.d3 - 1) + j) % x.d2) := by
    rw [flatGet_of_d1_one (dropFirstAxis2 (reshapeF x x.d0 x.d1 x.d3 x.d2)) h1 _ hmlt]
    show x.flatGet (flatIdx x.d1 x.d3 x.d2 0 0 ((i * (x.d3 - 1) + j) / x.d2 + 1)
        ((i * (x.d3 - 1) + j) % x.d2)) = _
    congr 1
    unfold flatIdx
    ring
  have hsum : ((i * (x.d3 - 1) + j) / x.d2 + 1) * x.d2 + (i * (x.d3 - 1) + j) % x.d2
      = (i * (x.d3 - 1) + j) + x.d2 := by
    have hdm := Nat.div_add_mod (i * (x.d3 - 1) + j) x.d2
    calc ((i * (x.d3 - 1) + j) / x.d2 + 1) * x.d2 + (i * (x.d3 - 1) + j) % x.d2
        = (x.d2 * ((i * (x.d3 - 1) + j) / x.d2) + (i * (x.d3 - 1) + j) % x.d2) + x.d2 := by
          ring
      _ = (i * (x.d3 - 1) + j) + x.d2 := by rw [hdm]
  have hip : i * x.d3 = i * (x.d3 - 1) + i := by
    rw [show x.d3 = (x.d3 - 1) + 1 by omega, Nat.mul_add, Nat.mul_one, Nat.add_sub_cancel]
  have hMe : (i * (x.d3 - 1) + j) + x.d2 = i * x.d3 + (x.d2 - i + j) := by
    generalize hA : i * (x.d3 - 1) = A at hip ⊢
    generalize hB : i * x.d3 = B at hip ⊢
    omega
  have hMlt : i * x.d3 + (x.d2 - i + j) < x.d2 * x.d3 :=
    calc i * x.d3 + (x.d2 - i + j) < i * x.d3 + x.d3 := Nat.add_lt_add_left hrow _
      _ = (i + 1) * x.d3 := by ring
      _ ≤ x.d2 * x.d3 := Nat.mul_le_mul_right _ hi
  have hdiv : (i * x.d3 + (x.d2 - i + j)) / x.d3 = i := by
    rw [add_comm, mul_comm i x.d3, Nat.add_mul_div_left _ _ hp1, Nat.div_eq_of_lt hrow,
      Nat.zero_add]
  have hmod : (i * x.d3 + (x.d2 - i + j)) % x.d3 = x.d2 - i + j := by
    rw [mul_comm i x.d3, Nat.mul_add_mod, Nat.mod_eq_of_lt hrow]
  rw [step1, step2, hsum, hMe, flatGet_of_d1_one x h1 _ hMlt, hdiv, hmod]

/-- Concrete input for the Relative Shift claims: shape `[1, 1, 2, 4]` with
entry `(0, 0, i, j) = 4 * i + j`. -/
def xC1 : T4 ℚ := ⟨1, 1, 2, 4, fun _ _ i j => ((i * 4 + j : ℕ) : ℚ)⟩

/-- Reading of the claimed behaviour: row `i` of the input shifted left by
`i` positions, truncated to the first `k` entries. -/
def rowShiftClaim (x : T4 ℚ) (i k : ℕ) : List ℚ :=
  (List.range k).map (fun j => x.f 0 0 i (i + j))

/-- Row `i` of the output of `rel_shift_bnij` as a list, for shape
inspection at concrete inputs. -/
def relShiftRow (x : T4 ℚ) (klen i : ℕ) : Option (List ℚ) :=
  (rel_shift_bnij x klen).map (fun y => (List.range y.d3).map (fun j => y.f 0 0 i j))

/-- C1 counterexample: on the `q = 2`, `p = 4` input suggested by the spec,
with `klen = 2`, output row `0` is `[2, 3]` — the input row `0` shifted left
by `q - 0 = 2` positions — not `[0, 1]`, the input row `0` shifted left by
`i = 0` positions as the claim states. -/
theorem rel_shift_bnij_claim_counterexample :
    relShiftRow xC1 2 0 = some [2, 3] ∧ rowShiftClaim xC1 0 2 = [0, 1] ∧
      relShiftRow xC1 2 0 ≠ some (rowShiftClaim xC1 0 2) := by decide

/-- C1 (amended): for an input of shape `[b, n, q, p]` and `klen = k ≤ p - 1`,
`rel_shift_bnij` returns a tensor of shape `[b, n, q, k]`, and for
`b = n = 1`, result row `i` equals input row `i` shifted left by `q - i`
positions (for entries that stay inside row `i`), truncated to the first `k`
entries. -/
theorem rel_shift_bnij_amended (x : T4 ℚ) (k : ℕ) (_hp : 1 ≤ x.d3) (hk : k ≤ x.d3 - 1) :
    ∃ y, rel_shift_bnij x k = some y ∧ y.d0 = x.d0 ∧ y.d1 = x.d1 ∧ y.d2 = x.d2 ∧ y.d3 = k ∧
      (∀ i j, x.d0 = 1 → x.d1 = 1 → i < x.d2 → j < k → x.d2 - i + j < x.d3 →
        y.f 0 0 i j = x.f 0 0 i (x.d2 - i + j)) := by
  refine ⟨relShiftT x k, rel_shift_bnij_eq_some x k hk, rfl, rfl, rfl, rfl, ?_⟩
  intro i j _ h1 hi hj hrow
  exact relShiftT_value x k i j h1 hi hj hk hrow

/-- Witness for C1 (amended) at the concrete `[1, 1, 2, 4]` input with
`klen = 2`. -/
theorem rel_shift_bnij_amended_witness :
    (1 ≤ xC1.d3) ∧ (2 ≤ xC1.d3 - 1) ∧
      (∃ y, rel_shift_bnij xC1 2 = some y ∧ y.d0 = xC1.d0 ∧ y.d1 = xC1.d1 ∧ y.d2 = xC1.d2 ∧
        y.d3 = 2 ∧ (∀ i j, xC1.d0 = 1 → xC1.d1 = 1 → i < xC1.d2 → j < 2 →
          xC1.d2 - i + j < xC1.d3 → y.f 0 0 i j = xC1.f 0 0 i (xC1.d2 - i + j))) :=
  ⟨by decide, by decide, rel_shift_bnij_amended xC1 2 (by decide) (by decide)⟩

/-- Function view of a rank-4 float tensor indexed as in the source
(`[i, b, n, d]`, `[b, n, i, j]`, etc.); extents are carried separately. -/
abbrev F4 : Type := ℕ → ℕ → ℕ → ℕ → ℝ

/-- Per-layer parameters of `XLNetRelativeAttention` that `rel_attn_core`
reads: head counts and the three bias vectors plus the segment embedding. -/
structure AttnParams where
  nHead : ℕ
  dHead : ℕ
  r_w_bias : ℕ → ℕ → ℝ
  r_r_bias : ℕ → ℕ → ℝ
  r_s_bias : ℕ → ℕ → ℝ
  seg_embed : ℕ → ℕ → ℕ → ℝ

/-- Embedding of `self.scale = 1 / (d_head ** 0.5)`. -/
noncomputable def AttnParams.scale (p : AttnParams) : ℝ :=
  1 / (p.dHead : ℝ) ^ ((1 : ℝ) / 2)

/-- Embedding of `F.softmax(·, axis=3)` on a last axis of extent `kl`. -/
noncomputable def softmaxR (kl : ℕ) (s : ℕ → ℝ) (j : ℕ) : ℝ :=
  Real.exp (s j) / ∑ j2 ∈ Finset.range kl, Real.exp (s j2)

/-- Embedding of `XLNetRelativeAttention.rel_attn_core`.  The einsum calls
are embedded by their contraction semantics; `nn.Dropout` is evaluation-mode
identity.  Returns `(attn_vec, attn_prob)`; `none` models a raising
`rel_shift_bnij`. -/
noncomputable def rel_attn_core (p : AttnParams) (bsz qlen klen plen : ℕ)
    (q_head k_head_h v_head_h k_head_r : F4)
    (seg_mat : Option F4) (attn_mask : Option F4) (head_mask : Option F4) :
    Option (F4 × F4) :=
  match rel_shift_bnij (T4.mk bsz p.nHead qlen plen (fun b n i j =>
      ∑ d ∈ Finset.range p.dHead, (q_head i b n d + p.r_r_bias n d) * k_head_r j b n d)) klen with
  | none => none
  | some bdT =>
    let ac : F4 := fun b n i j =>
      ∑ d ∈ Finset.range p.dHead, (q_head i b n d + p.r_w_bias n d) * k_head_h j b n d
    let ef : F4 := match seg_mat with
      | none => fun _ _ _ _ => 0
      | some sm => fun b n i j =>
          ∑ s2 ∈ Finset.range 2, sm i j b s2 *
            (∑ d ∈ Finset.range p.dHead, (q_head i b n d + p.r_s_bias n d) * p.seg_embed s2 n d)
    let attn_score : F4 := fun b n i j => (ac b n i j + bdT.f b n i j + ef b n i j) * p.scale
    let masked : F4 := match attn_mask with
      | none => attn_score
      | some am => fun b n i j => attn_score b n i j - (10 : ℝ) ^ (30 : ℕ) * am i j b 0
    let attn_prob : F4 := fun b n i j => softmaxR klen (masked b n i) j
    let attn_prob2 : F4 := match head_mask with
      | none => attn_prob
      | some hm => fun b n i j => attn_prob b n i j * hm i j b n
    let attn_vec : F4 := fun i b n d =>
      ∑ j ∈ Finset.range klen, attn_prob2 b n i j * v_head_h j b n d
    some (attn_vec, attn_prob2)

/-- Content score of the spec: contraction of `(query + content-bias)`
against the content keys over the head dimension. -/
noncomputable def acScore (dh : ℕ) (rwb : ℕ → ℕ → ℝ) (q_head k_head_h : F4) : F4 :=
  fun b n i j => ∑ d ∈ Finset.range dh, (q_head i b n d + rwb n d) * k_head_h j b n d

/-- Position score of the spec: contraction of `(query + position-bias)`
against the position keys, then relative-shifted to key alignment. -/
noncomputable def bdScore (p : AttnParams) (bsz qlen klen plen : ℕ)
    (q_head k_head_r : F4) : F4 :=
  (relShiftT (T4.mk bsz p.nHead qlen plen (fun b n i j =>
    ∑ d ∈ Finset.range p.dHead, (q_head i b n d + p.r_r_bias n d) * k_head_r j b n d)) klen).f

/-- Segment score of the spec: zero when the segment matrix is absent, else
the one-hot selection of the per-segment affinities. -/
noncomputable def efScore (dh : ℕ) (rsb : ℕ → ℕ → ℝ) (segEmb : ℕ → ℕ → ℕ → ℝ)
    (seg_mat : Option F4) (q_head : F4) : F4 :=
  match seg_mat with
  | none => fun _ _ _ _ => 0
  | some sm => fun b n i j =>
      ∑ s2 ∈ Finset.range 2, sm i j b s2 *
        (∑ d ∈ Finset.range dh, (q_head i b n d + rsb n d) * segEmb s2 n d)

lemma AttnParams.scale_eq_sqrt (p : AttnParams) :
    p.scale = 1 / Real.sqrt (p.dHead : ℝ) := by
  unfold AttnParams.scale
  rw [Real.sqrt_eq_rpow]

/-- C2: the pre-softmax attention score of `rel_attn_core` is
`(ac + bd + ef) * (1 / sqrt d_head)`, `ef` is zero when the segment matrix
is absent, and with an attention mask the probabilities are the softmax,
over the key axis, of that combined score minus `1e30` times the mask
value. -/
theorem rel_attn_core_score_decomposition (p : AttnParams) (bsz qlen klen plen : ℕ)
    (q_head k_head_h v_head_h k_head_r : F4) (seg_mat : Option F4) (am : F4)
    (hk : klen ≤ plen - 1) :
    ∃ vec prob, rel_attn_core p bsz qlen klen plen q_head k_head_h v_head_h k_head_r
        seg_mat (some am) none = some (vec, prob) ∧
      (∀ b n i j, prob b n i j = softmaxR klen (fun j2 =>
        (acScore p.dHead p.r_w_bias q_head k_head_h b n i j2
          + bdScore p bsz qlen klen plen q_head k_head_r b n i j2
          + efScore p.dHead p.r_s_bias p.seg_embed seg_mat q_head b n i j2)
          * (1 / Real.sqrt (p.dHead : ℝ))
          - (10 : ℝ) ^ (30 : ℕ) * am i j2 b 0) j) ∧
      (∀ b n i j, efScore p.dHead p.r_s_bias p.seg_embed none q_head b n i j = 0) := by
  unfold rel_attn_core
  rw [rel_shift_bnij_eq_some (T4.mk bsz p.nHead qlen plen (fun b n i j =>
    ∑ d ∈ Finset.range p.dHead, (q_head i b n d + p.r_r_bias n d) * k_head_r j b n d)) klen hk]
  refine ⟨_, _, rfl, ?_, fun b n i j => rfl⟩
  intro b n i j
  rw [← AttnParams.scale_eq_sqrt]
  rfl

/-- Witness configuration: one head of head-dimension one and all-zero
tensors. -/
noncomputable def pW : AttnParams :=
  ⟨1, 1, fun _ _ => 0, fun _ _ => 0, fun _ _ => 0, fun _ _ _ => 0⟩

/-- All-zero rank-4 float tensor. -/
noncomputable def zf4 : F4 := fun _ _ _ _ => 0

/-- Witness for C2 at `bsz = qlen = klen = 1`, `plen = 2`. -/
theorem rel_attn_core_score_decomposition_witness :
    ((1 : ℕ) ≤ 2 - 1) ∧
      (∃ vec prob, rel_attn_core pW 1 1 1 2 zf4 zf4 zf4 zf4 none (some zf4) none
          = some (vec, prob) ∧
        (∀ b n i j, prob b n i j = softmaxR 1 (fun j2 =>
          (acScore pW.dHead pW.r_w_bias zf4 zf4 b n i j2
            + bdScore pW 1 1 1 2 zf4 zf4 b n i j2
            + efScore pW.dHead pW.r_s_bias pW.seg_embed none zf4 b n i j2)
            * (1 / Real.sqrt (pW.dHead : ℝ))
            - (10 : ℝ) ^ (30 : ℕ) * zf4 i j2 b 0) j) ∧
        (∀ b n i j, efScore pW.dHead pW.r_s_bias pW.seg_embed none zf4 b n i j = 0)) :=
  ⟨by decide,
    rel_attn_core_score_decomposition pW 1 1 1 2 zf4 zf4 zf4 zf4 none zf4 (by decide)⟩

lemma softmaxR_sum (kl : ℕ) (h0 : 0 < kl) (s : ℕ → ℝ) :
    ∑ j ∈ Finset.range kl, softmaxR kl s j = 1 := by
  unfold softmaxR
  rw [← Finset.sum_div]
  apply div_self
  exact ne_of_gt (Finset.sum_pos (fun j2 _ => Real.exp_pos (s j2))
    ⟨0, Finset.mem_range.mpr h0⟩)

/-- C5: for every query row (masked or not), the attention probabilities of
`rel_attn_core` sum to exactly 1 along the key axis (real-arithmetic model,
no head mask, evaluation-mode dropout); in particular no hard failure occurs
on fully masked rows. -/
theorem rel_attn_core_prob_rows_sum_one (p : AttnParams) (bsz qlen klen plen : ℕ)
    (q_head k_head_h v_head_h k_head_r : F4) (seg_mat : Option F4)
    (attn_mask : Option F4) (hk : klen ≤ plen - 1) (h0 : 0 < klen) :
    ∃ vec prob, rel_attn_core p bsz qlen klen plen q_head k_head_h v_head_h k_head_r
        seg_mat attn_mask none = some (vec, prob) ∧
      ∀ b n i, ∑ j ∈ Finset.range klen, prob b n i j = 1 := by
  unfold rel_attn_core
  rw [rel_shift_bnij_eq_some (T4.mk bsz p.nHead qlen plen (fun b n i j =>
    ∑ d ∈ Finset.range p.dHead, (q_head i b n d + p.r_r_bias n d) * k_head_r j b n d)) klen hk]
  exact ⟨_, _, rfl, fun b n i => softmaxR_sum klen h0 _⟩

/-- Witness for C5 at `bsz = qlen = klen = 1`, `plen = 2`, with a mask. -/
theorem rel_attn_core_prob_rows_sum_one_witness :
    ((1 : ℕ) ≤ 2 - 1) ∧ (0 < 1) ∧
      (∃ vec prob, rel_attn_core pW 1 1 1 2 zf4 zf4 zf4 zf4 none (some zf4) none
          = some (vec, prob) ∧
        ∀ b n i, ∑ j ∈ Finset.range 1, prob b n i j = 1) :=
  ⟨by decide, by decide,
    rel_attn_core_prob_rows_sum_one pW 1 1 1 2 zf4 zf4 zf4 zf4 none (some zf4)
      (by decide) (by decide)⟩

/-- Rank-3 tensor (`[seq, batch, feature]`): three extents plus a total
index function. -/
structure T3 where
  d0 : ℕ
  d1 : ℕ
  d2 : ℕ
  f : ℕ → ℕ → ℕ → ℝ

/-- Number of elements of a rank-3 tensor. -/
def T3.numel (t : T3) : ℕ := t.d0 * t.d1 * t.d2

/-- Element at a row-major flat position. -/
def T3.flatGet (t : T3) (m : ℕ) : ℝ :=
  t.f (m / (t.d1 * t.d2)) (m / t.d2 % t.d1) (m % t.d2)

/-- Model of `paddle.concat([a, b], axis=0)` for rank-3 tensors. -/
def concat3_axis0 (a b : T3) : T3 :=
  ⟨a.d0 + b.d0, a.d1, a.d2, fun i j k2 => if i < a.d0 then a.f i j k2 else b.f (i - a.d0) j k2⟩

/-- Model of `paddle.matmul(x, w)` for a rank-3 `x` against a
`[dModel, nOut]` weight matrix. -/
noncomputable def matmulProj (x : T3) (w : ℕ → ℕ → ℝ) (dModel nOut : ℕ) : T3 :=
  ⟨x.d0, x.d1, nOut, fun i b m => ∑ h2 ∈ Finset.range dModel, x.f i b h2 * w h2 m⟩

/-- Model of `paddle.reshape` from rank 3 to rank 4 (paddle raises on an
element-count mismatch, modelled as `none`). -/
def reshape3to4 (t : T3) (a b c d : ℕ) : Option (T4 ℝ) :=
  if t.numel = a * b * c * d then
    some ⟨a, b, c, d, fun i0 i1 i2 i3 => t.flatGet (flatIdx b c d i0 i1 i2 i3)⟩
  else none

/-- Embedding of the head computations of the content-only (`g is None`)
branch of `XLNetRelativeAttention.forward`: `cat` is `concat([mems, h])`
when memory is present, and the query/key/value/position-key projections are
reshaped exactly with the extents the source passes — `h.shape[0]` and
`h.shape[1]` for `q`, `k` and `v`, and `[k_head_r.shape[0], -1]` for the
position key. -/
noncomputable def contentOnlyHeads (nHead dHead dModel : ℕ) (qW kW vW rW : ℕ → ℕ → ℝ)
    (h : T3) (mems : Option T3) (r : T3) : Option (T4 ℝ × T4 ℝ × T4 ℝ × T4 ℝ) := do
  let cat := match mems with
    | some m => concat3_axis0 m h
    | none => h
  let q_head_h ← reshape3to4 (matmulProj h qW dModel (nHead * dHead)) h.d0 h.d1 nHead dHead
  let k_head_h ← reshape3to4 (matmulProj cat kW dModel (nHead * dHead)) h.d0 h.d1 nHead dHead
  let v_head_h ← reshape3to4 (matmulProj cat vW dModel (nHead * dHead)) h.d0 h.d1 nHead dHead
  let kr := matmulProj r rW dModel (nHead * dHead)
  let k_head_r ← reshape3to4 kr kr.d0 ((kr.d1 * kr.d2) / (nHead * dHead)) nHead dHead
  return (q_head_h, k_head_h, v_head_h, k_head_r)

/-- All-zero weight matrix. -/
noncomputable def zeroW : ℕ → ℕ → ℝ := fun _ _ => 0

/-- Content input with `qlen = 1`, `bsz = 1`, `d_model = 1`. -/
noncomputable def hC3 : T3 := ⟨1, 1, 1, fun _ _ _ => 0⟩

/-- Previous memory with `mlen = 1`. -/
noncomputable def memC3 : T3 := ⟨1, 1, 1, fun _ _ _ => 0⟩

/-- Position embedding input with `pos_len = 2`. -/
noncomputable def rC3 : T3 := ⟨2, 1, 1, fun _ _ _ => 0⟩

/-- C3 (code bug): the concatenation of memory and content does have
sequence length `mlen + qlen`, but the content-only branch reshapes the key
and value heads with `h.shape[0] = qlen` instead of `cat.shape[0] =
mlen + qlen`, so with any non-empty memory the element counts disagree and
`paddle.reshape` raises (`none`); without memory the same call succeeds. -/
theorem content_only_kv_heads_code_bug :
    (∀ (m h2 : T3), (concat3_axis0 m h2).d0 = m.d0 + h2.d0) ∧
      contentOnlyHeads 1 1 1 zeroW zeroW zeroW zeroW hC3 (some memC3) rC3 = none ∧
      (contentOnlyHeads 1 1 1 zeroW zeroW zeroW zeroW hC3 none rC3).isSome = true :=
  ⟨fun _ _ => rfl, rfl, rfl⟩

/-- Truncation applied to the current output before caching: first
`reuse_len` positions when a positive reuse length is configured. -/
def reuseTrunc {α : Type} (reuseLen : Option ℕ) (currOut : List α) : List α :=
  match reuseLen with
  | some r => if 0 < r then currOut.take r else currOut
  | none => currOut

/-- Slicing by the cutoff of `cache_mem`: `l[0:]` when `mem_len` is unset or
zero, `l[-mem_len:]` otherwise. -/
def cutoffSlice {α : Type} (memLen : Option ℕ) (l : List α) : List α :=
  match memLen with
  | none => l
  | some m => if m = 0 then l else l.drop (l.length - m)

/-- Embedding of `XLNetModel.cache_mem` (the sequence axis as a list;
`detach` has no observable effect in this model). -/
def cache_mem {α : Type} (memLen reuseLen : Option ℕ) (currOut : List α)
    (prevMem : Option (List α)) : List α :=
  match prevMem with
  | none => cutoffSlice memLen (reuseTrunc reuseLen currOut)
  | some prev => cutoffSlice memLen (prev ++ reuseTrunc reuseLen currOut)

/-- Eligible part of the current output in the claim's words: the first
`reuse_len` positions when a reuse length is configured, everything
otherwise. -/
def eligibleOut {α : Type} (reuseLen : Option ℕ) (currOut : List α) : List α :=
  match reuseLen with
  | none => currOut
  | some r => currOut.take r

/-- C4: with a positive `mem_len`, the new memory is exactly the trailing
`mem_len` positions of previous memory ++ eligible current output, hence
never longer than `mem_len`; with `mem_len` unset or zero the full
concatenated history is returned. -/
theorem cache_mem_spec {α : Type} (m : ℕ) (reuseLen : Option ℕ) (curr : List α)
    (prev : Option (List α)) (hm : 0 < m) (hr : ∀ r, reuseLen = some r → 0 < r) :
    cache_mem (some m) reuseLen curr prev
        = (prev.getD [] ++ eligibleOut reuseLen curr).drop
            ((prev.getD [] ++ eligibleOut reuseLen curr).length - m) ∧
      (cache_mem (some m) reuseLen curr prev).length ≤ m ∧
      cache_mem none reuseLen curr prev = prev.getD [] ++ eligibleOut reuseLen curr ∧
      cache_mem (some 0) reuseLen curr prev = prev.getD [] ++ eligibleOut reuseLen curr := by
  have hm0 : m ≠ 0 := Nat.pos_iff_ne_zero.mp hm
  have hcurr : reuseTrunc reuseLen curr = eligibleOut reuseLen curr := by
    cases reuseLen with
    | none => rfl
    | some r => simp only [reuseTrunc, eligibleOut, if_pos (hr r rfl)]
  have key : ∀ ml : Option ℕ, cache_mem ml reuseLen curr prev
      = cutoffSlice ml (prev.getD [] ++ eligibleOut reuseLen curr) := by
    intro ml
    cases prev with
    | none => simp only [cache_mem, hcurr, Option.getD_none, List.nil_append]
    | some prevL => simp only [cache_mem, hcurr, Option.getD_some]
  refine ⟨?_, ?_, ?_, ?_⟩
  · rw [key (some m)]
    simp only [cutoffSlice]
    rw [if_neg hm0]
  · rw [key (some m)]
    simp only [cutoffSlice]
    rw [if_neg hm0, List.length_drop]
    omega
  · rw [key none]
    rfl
  · rw [key (some 0)]
    rfl

/-- Witness for C4: `mem_len = 3`, no reuse length, current output `[1, 2]`,
previous memory `[5, 6, 7]`. -/
theorem cache_mem_spec_witness :
    ((0 : ℕ) < 3) ∧
      (cache_mem (some 3) none ([1, 2] : List ℤ) (some [5, 6, 7])
          = ((some [5, 6, 7] : Option (List ℤ)).getD [] ++ eligibleOut none [1, 2]).drop
              (((some [5, 6, 7] : Option (List ℤ)).getD []
                ++ eligibleOut none [1, 2]).length - 3) ∧
        (cache_mem (some 3) none ([1, 2] : List ℤ) (some [5, 6, 7])).length ≤ 3 ∧
        cache_mem none none ([1, 2] : List ℤ) (some [5, 6, 7])
          = (some [5, 6, 7] : Option (List ℤ)).getD [] ++ eligibleOut none [1, 2] ∧
        cache_mem (some 0) none ([1, 2] : List ℤ) (some [5, 6, 7])
          = (some [5, 6, 7] : Option (List ℤ)).getD [] ++ eligibleOut none [1, 2]) ∧
      cache_mem (some 3) none ([1, 2] : List ℤ) (some [5, 6, 7]) = [7, 1, 2] :=
  ⟨by decide, cache_mem_spec 3 none [1, 2] (some [5, 6, 7]) (by decide) (fun r h => nomatch h),
    by decide⟩

/-- Model of `paddle.arange(beg, end, -1.0)` over integer positions
(`beg` down to, excluding, `end`). -/
def descRange (beg endE : ℤ) : List ℤ :=
  (List.range (beg - endE).toNat).map (fun t : ℕ => beg - (t : ℤ))

/-- Model of `paddle.arange(beg, end, 1.0)` over integer positions. -/
def ascRange (beg endE : ℤ) : List ℤ :=
  (List.range (endE - beg).toNat).map (fun t : ℕ => beg + (t : ℤ))

/-- Position-range bounds chosen by `relative_positional_encoding`:
`(klen, -qlen)` for bidirectional attention, `(klen, -1)` for
unidirectional, an error (`none`) otherwise. -/
def posRangeBounds (attnType : String) (qlen klen : ℕ) : Option (ℤ × ℤ) :=
  if attnType = "bi" then some ((klen : ℤ), -(qlen : ℤ))
  else if attnType = "uni" then some ((klen : ℤ), (-1 : ℤ))
  else none

/-- Forward position sequence `paddle.arange(beg, end, -1.0)` for the
configured attention type. -/
def fwdPosSeq (attnType : String) (qlen klen : ℕ) : Option (List ℤ) :=
  (posRangeBounds attnType qlen klen).map (fun be => descRange be.1 be.2)

/-- Length of `freq_seq = paddle.arange(0, d_model, 2.0)`. -/
def nFreq (dModel : ℕ) : ℕ := (dModel + 1) / 2

/-- Entry `i` of `inv_freq = 1 / 10000 ** (freq_seq / d_model)`. -/
noncomputable def invFreq (dModel i : ℕ) : ℝ :=
  1 / (10000 : ℝ) ^ (((2 * i : ℕ) : ℝ) / (dModel : ℝ))

/-- Feature `j` of the sinusoidal embedding of one position:
`concat([sin(pos * inv_freq), cos(pos * inv_freq)], axis=-1)`. -/
noncomputable def posEmbEntry (dModel : ℕ) (pos : ℝ) (j : ℕ) : ℝ :=
  if j < nFreq dModel then Real.sin (pos * invFreq dModel j)
  else Real.cos (pos * invFreq dModel (j - nFreq dModel))

/-- Embedding of `XLNetModel.positional_embedding`: `[pos_len, bsz or 1,
2 * nFreq]`, value independent of the batch index (`stop_gradient` has no
observable effect in this model). -/
noncomputable def positional_embedding (dModel : ℕ) (posSeq : List ℤ) (bsz : Option ℕ) : T3 :=
  ⟨posSeq.length, bsz.getD 1, 2 * nFreq dModel,
    fun i _ j => posEmbEntry dModel ((posSeq.getD i 0 : ℤ) : ℝ) j⟩

/-- Model of `paddle.concat([a, b], axis=1)` for rank-3 tensors. -/
def concat3_axis1 (a b : T3) : T3 :=
  ⟨a.d0, a.d1 + b.d1, a.d2, fun i bb j => if bb < a.d1 then a.f i bb j else b.f i (bb - a.d1) j⟩

/-- Python value sitting in the `bi_data` slot: a proper boolean, or a
string (the constructor default of `XLNetModel.__init__` is the string
`"False"`). -/
inductive PyVal where
  | pbool (b : Bool)
  | pstr (s : String)

/-- Python truthiness: a nonempty string is truthy. -/
def pyTruthy : PyVal → Bool
  | .pbool b => b
  | .pstr s => !(s == "")

/-- Default value of the `bi_data` keyword of `XLNetModel.__init__`. -/
def xlnetBiDataDefault : PyVal := PyVal.pstr "False"

/-- Embedding of `XLNetModel.relative_positional_encoding`: chooses the
position range by attention type, optionally clamps, and either embeds
forward and backward sequences with the batch halved for each and
concatenates them (`bi_data` truthy) or embeds the single forward sequence
(`bi_data` falsy). -/
noncomputable def relative_positional_encoding (attnType : String) (biData : PyVal)
    (clampLen : ℤ) (dModel qlen klen : ℕ) (bsz : Option ℕ) : Option T3 :=
  match posRangeBounds attnType qlen klen with
  | none => none
  | some be =>
    if pyTruthy biData then
      let fwd0 := descRange be.1 be.2
      let bwd0 := ascRange (-be.1) (-be.2)
      let fwd := if 0 < clampLen then
        fwd0.map (fun v => min clampLen (max (-clampLen) v)) else fwd0
      let bwd := if 0 < clampLen then
        bwd0.map (fun v => min clampLen (max (-clampLen) v)) else bwd0
      some (concat3_axis1 (positional_embedding dModel fwd (bsz.map (· / 2)))
        (positional_embedding dModel bwd (bsz.map (· / 2))))
    else
      let fwd0 := descRange be.1 be.2
      let fwd := if 0 < clampLen then
        fwd0.map (fun v => min clampLen (max (-clampLen) v)) else fwd0
      some (positional_embedding dModel fwd bsz)

lemma descRange_length (beg endE : ℤ) : (descRange beg endE).length = (beg - endE).toNat := by
  unfold descRange
  rw [List.length_map, List.length_range]

lemma descRange_getD (beg endE : ℤ) (t : ℕ) (ht : t < (beg - endE).toNat) :
    (descRange beg endE).getD t 0 = beg - t := by
  unfold descRange
  rw [List.getD_eq_getElem?_getD, List.getElem?_map, List.getElem?_range ht]
  rfl

/-- C6: for `attn_type = "bi"` the position sequence runs from `klen` down
to, excluding, `-qlen` (length `qlen + klen`); for `"uni"` from `klen` down
to, excluding, `-1`; the embedding of position 0 is zero on the sine half
and one on the cosine half; and with `bi_data = False` the generated
bidirectional encoding has position extent `qlen + klen`. -/
theorem relative_positional_encoding_spec (qlen klen dModel t u j1 j2 : ℕ) (bsz : Option ℕ)
    (ht : t < qlen + klen) (hu : u < klen + 1) (hj1 : j1 < nFreq dModel)
    (hj2 : nFreq dModel ≤ j2) :
    (∃ l, fwdPosSeq "bi" qlen klen = some l ∧ l.length = qlen + klen
        ∧ l.getD t 0 = (klen : ℤ) - t) ∧
      (∃ l, fwdPosSeq "uni" qlen klen = some l ∧ l.length = klen + 1
        ∧ l.getD u 0 = (klen : ℤ) - u) ∧
      posEmbEntry dModel 0 j1 = 0 ∧ posEmbEntry dModel 0 j2 = 1 ∧
      (∃ pe, relative_positional_encoding "bi" (PyVal.pbool false) (-1) dModel qlen klen bsz
          = some pe ∧ pe.d0 = qlen + klen) := by
  have hlenBi : ((klen : ℤ) - -(qlen : ℤ)).toNat = qlen + klen := by omega
  have hlenUni : ((klen : ℤ) - (-1 : ℤ)).toNat = klen + 1 := by omega
  refine ⟨⟨_, rfl, ?_, ?_⟩, ⟨_, rfl, ?_, ?_⟩, ?_, ?_, ⟨_, rfl, ?_⟩⟩
  · rw [descRange_length, hlenBi]
  · rw [descRange_getD _ _ t (by omega)]
  · rw [descRange_length, hlenUni]
  · rw [descRange_getD _ _ u (by omega)]
  · unfold posEmbEntry
    rw [if_pos hj1, zero_mul, Real.sin_zero]
  · unfold posEmbEntry
    rw [if_neg (not_lt.mpr hj2), zero_mul, Real.cos_zero]
  · show (positional_embedding dModel (descRange (klen : ℤ) (-(qlen : ℤ))) bsz).d0
      = qlen + klen
    rw [show (positional_embedding dModel (descRange (klen : ℤ) (-(qlen : ℤ))) bsz).d0
      = (descRange (klen : ℤ) (-(qlen : ℤ))).length from rfl, descRange_length, hlenBi]

/-- Witness for C6 at `qlen = 1`, `klen = 2`, `d_model = 2`. -/
theorem relative_positional_encoding_spec_witness :
    ((0 : ℕ) < 1 + 2) ∧ ((0 : ℕ) < 2 + 1) ∧ ((0 : ℕ) < nFreq 2) ∧ (nFreq 2 ≤ 1) ∧
      ((∃ l, fwdPosSeq "bi" 1 2 = some l ∧ l.length = 1 + 2 ∧ l.getD 0 0 = (2 : ℤ) - 0) ∧
        (∃ l, fwdPosSeq "uni" 1 2 = some l ∧ l.length = 2 + 1 ∧ l.getD 0 0 = (2 : ℤ) - 0) ∧
        posEmbEntry 2 0 0 = 0 ∧ posEmbEntry 2 0 1 = 1 ∧
        (∃ pe, relative_positional_encoding "bi" (PyVal.pbool false) (-1) 2 1 2 none
            = some pe ∧ pe.d0 = 1 + 2)) :=
  ⟨by decide, by decide, by decide, by decide,
    relative_positional_encoding_spec 1 2 2 0 0 0 1 none (by decide) (by decide)
      (by decide) (by decide)⟩

lemma invFreq_zero (dModel : ℕ) : invFreq dModel 0 = 1 := by
  unfold invFreq
  norm_num

lemma posEmbEntry_first (dModel : ℕ) (pos : ℝ) (hd : 0 < nFreq dModel) :
    posEmbEntry dModel pos 0 = Real.sin (pos * invFreq dModel 0) := by
  unfold posEmbEntry
  rw [if_pos hd]

lemma sin_one_ne_sin_neg_one : Real.sin (-1) ≠ Real.sin 1 := by
  rw [Real.sin_neg]
  intro h
  have hpos : 0 < Real.sin 1 :=
    Real.sin_pos_of_pos_of_lt_pi (by norm_num) (by linarith [Real.pi_gt_three])
  linarith

/-- C10: the constructor default `bi_data = "False"` is a truthy string, so
`relative_positional_encoding` takes the bidirectional-data branch (forward
and backward sequences, batch halved for each, concatenated) — the opposite
of what an explicit boolean `False` produces.  At `qlen = klen = 1`,
`d_model = 2`, `bsz = 2`, the two results differ at batch index 1 of
position 0: `sin(-1)` (backward sequence) versus `sin(1)` (forward
sequence). -/
theorem bi_data_default_truthy :
    pyTruthy xlnetBiDataDefault = true ∧
      pyTruthy (PyVal.pbool false) = false ∧
      (∃ ts, relative_positional_encoding "bi" xlnetBiDataDefault (-1) 2 1 1 (some 2)
          = some ts ∧ ts.d1 = 2 ∧ ts.f 0 0 0 = Real.sin 1 ∧ ts.f 0 1 0 = Real.sin (-1)) ∧
      (∃ tb, relative_positional_encoding "bi" (PyVal.pbool false) (-1) 2 1 1 (some 2)
          = some tb ∧ tb.f 0 0 0 = Real.sin 1 ∧ tb.f 0 1 0 = Real.sin 1) ∧
      Real.sin (-1) ≠ Real.sin 1 := by
  have hfwd : ((descRange 1 (-1)).getD 0 0) = (1 : ℤ) := by decide
  have hbwd : ((ascRange (-1) 1).getD 0 0) = (-1 : ℤ) := by decide
  have hn : (0 : ℕ) < nFreq 2 := by decide
  refine ⟨rfl, rfl, ⟨_, rfl, rfl, ?_, ?_⟩, ⟨_, rfl, ?_, ?_⟩, sin_one_ne_sin_neg_one⟩
  · show posEmbEntry 2 (((descRange 1 (-1)).getD 0 0 : ℤ) : ℝ) 0 = Real.sin 1
    rw [hfwd, posEmbEntry_first 2 _ hn, invFreq_zero, mul_one]
    norm_num
  · show posEmbEntry 2 (((ascRange (-1) 1).getD 0 0 : ℤ) : ℝ) 0 = Real.sin (-1)
    rw [hbwd, posEmbEntry_first 2 _ hn, invFreq_zero, mul_one]
    norm_num
  · show posEmbEntry 2 (((descRange 1 (-1)).getD 0 0 : ℤ) : ℝ) 0 = Real.sin 1
    rw [hfwd, posEmbEntry_first 2 _ hn, invFreq_zero, mul_one]
    norm_num
  · show posEmbEntry 2 (((descRange 1 (-1)).getD 0 0 : ℤ) : ℝ) 0 = Real.sin 1
    rw [hfwd, posEmbEntry_first 2 _ hn, invFreq_zero, mul_one]
    norm_num

/-- Model of the binarization `paddle.cast(attn_mask > 0)` of the combined
attention mask (indexed `[i, j, b, c]`). -/
def binarizeMask (m : ℕ → ℕ → ℕ → ℕ → ℚ) : ℕ → ℕ → ℕ → ℕ → ℚ :=
  fun i j b c => if 0 < m i j b c then 1 else 0

/-- Base of the non-target mask:
`concat([zeros(qlen, mlen), -eye(qlen)], axis=-1)`. -/
def nonTgtBase (qlen mlen : ℕ) : ℕ → ℕ → ℚ :=
  fun i j => if j < mlen then 0 else if i = j - mlen ∧ i < qlen then -1 else 0

/-- Embedding of the `non_tgt_mask` construction of `XLNetModel.forward`:
binarize the combined mask, add the broadcast base, then threshold with
`> 0` again. -/
def non_tgt_mask (qlen mlen : ℕ) (attnMaskRaw : ℕ → ℕ → ℕ → ℕ → ℚ) :
    ℕ → ℕ → ℕ → ℕ → ℚ :=
  fun i j b c =>
    if 0 < binarizeMask attnMaskRaw i j b c + nonTgtBase qlen mlen i j then 1 else 0

/-- C7: in the h-stream (non-target) mask, every query position `i` is left
unmasked at its own key position `mlen + i`, for every batch and broadcast
index and every combined mask — even where the combined mask marks that
pair as masked. -/
theorem non_tgt_mask_diag_unmasked (qlen mlen i b c : ℕ)
    (raw : ℕ → ℕ → ℕ → ℕ → ℚ) (hi : i < qlen) :
    non_tgt_mask qlen mlen raw i (mlen + i) b c = 0 := by
  unfold non_tgt_mask nonTgtBase binarizeMask
  have hbase : (if mlen + i < mlen then (0 : ℚ)
      else if i = mlen + i - mlen ∧ i < qlen then -1 else 0) = -1 := by
    rw [if_neg (by omega), if_pos ⟨by omega, hi⟩]
  rw [hbase]
  by_cases hp : 0 < raw i (mlen + i) b c
  · rw [if_pos hp]
    norm_num
  · rw [if_neg hp]
    norm_num

/-- Witness for C7: `qlen = 2`, `mlen = 1`, query 1 against key `1 + 1`,
with a raw mask that marks everything as masked. -/
theorem non_tgt_mask_diag_unmasked_witness :
    ((1 : ℕ) < 2) ∧ non_tgt_mask 2 1 (fun _ _ _ _ => (5 : ℚ)) 1 (1 + 1) 0 0 = 0 :=
  ⟨by decide, non_tgt_mask_diag_unmasked 2 1 1 0 0 (fun _ _ _ _ => (5 : ℚ)) (by decide)⟩

/-- Result of the input validation at the top of `XLNetModel.forward`. -/
inductive ValidatedInput (A B : Type) where
  | ids (a : A)
  | embeds (e : B)

/-- Embedding of the mutual-exclusion validation at the top of
`XLNetModel.forward`: both supplied and neither supplied raise, in this
order, before anything else touches the inputs. -/
def validate_inputs {A B : Type} (input_ids : Option A) (inputs_embeds : Option B) :
    Except String (ValidatedInput A B) :=
  match input_ids, inputs_embeds with
  | some _, some _ =>
      .error "You cannot specify both input_ids and inputs_embeds at the same time"
  | some a, none => .ok (.ids a)
  | none, some e => .ok (.embeds e)
  | none, none => .error "You have to specify either input_ids or inputs_embeds"

/-- C8: `XLNetModel.forward` raises when both token ids and embeddings are
supplied and when neither is, and proceeds past the validation exactly when
one of the two is supplied. -/
theorem validate_inputs_spec {A B : Type} (a : A) (e : B) :
    validate_inputs (some a) (some e)
        = .error "You cannot specify both input_ids and inputs_embeds at the same time" ∧
      validate_inputs (some a) (none : Option B) = .ok (.ids a) ∧
      validate_inputs (none : Option A) (some e) = .ok (.embeds e) ∧
      validate_inputs (none : Option A) (none : Option B)
        = .error "You have to specify either input_ids or inputs_embeds" ∧
      (∀ (ids : Option A) (emb : Option B),
        (∃ v, validate_inputs ids emb = .ok v) ↔ ids.isSome ≠ emb.isSome) := by
  refine ⟨rfl, rfl, rfl, rfl, ?_⟩
  intro ids emb
  cases ids <;> cases emb <;> simp [validate_inputs]

/-- Closed enumeration of the supported activations of `ACT2FN`. -/
inductive ActivationKind where
  | relu
  | gelu
  | tanh
  | sigmoid
  | mish
  | linear
  | swish
  deriving DecidableEq

/-- Embedding of the dictionary lookup `ACT2FN[s]` over the seven
string keys of the source. -/
def act2fnGet (s : String) : Option ActivationKind :=
  if s = "relu" then some .relu
  else if s = "gelu" then some .gelu
  else if s = "tanh" then some .tanh
  else if s = "sigmoid" then some .sigmoid
  else if s = "mish" then some .mish
  else if s = "linear" then some .linear
  else if s = "swish" then some .swish
  else none

/-- Embedding of the activation resolution in `XLNetFeedForward.__init__`
for a string argument: `ACT2FN[ff_activation]` — a `KeyError` at
construction time when the name is not a key. -/
def xlnet_ff_activation (s : String) : Except String ActivationKind :=
  match act2fnGet s with
  | some a => .ok a
  | none => .error ("KeyError: " ++ s)

/-- C9: an activation name outside the supported seven raises at
construction time, and each supported name resolves to its own
activation. -/
theorem xlnet_ff_activation_spec (s : String)
    (hs : s ∉ ["relu", "gelu", "tanh", "sigmoid", "mish", "linear", "swish"]) :
    xlnet_ff_activation s = .error ("KeyError: " ++ s) ∧
      xlnet_ff_activation "relu" = .ok .relu ∧
      xlnet_ff_activation "gelu" = .ok .gelu ∧
      xlnet_ff_activation "tanh" = .ok .tanh ∧
      xlnet_ff_activation "sigmoid" = .ok .sigmoid ∧
      xlnet_ff_activation "mish" = .ok .mish ∧
      xlnet_ff_activation "linear" = .ok .linear ∧
      xlnet_ff_activation "swish" = .ok .swish := by
  refine ⟨?_, rfl, rfl, rfl, rfl, rfl, rfl, rfl⟩
  simp only [List.mem_cons, List.not_mem_nil, or_false, not_or] at hs
  obtain ⟨h1, h2, h3, h4, h5, h6, h7⟩ := hs
  unfold xlnet_ff_activation act2fnGet
  rw [if_neg h1, if_neg h2, if_neg h3, if_neg h4, if_neg h5, if_neg h6, if_neg h7]

/-- Witness for C9 at the unsupported name `"selu"`. -/
theorem xlnet_ff_activation_spec_witness :
    ("selu" ∉ ["relu", "gelu", "tanh", "sigmoid", "mish", "linear", "swish"]) ∧
      (xlnet_ff_activation "selu" = .error ("KeyError: " ++ "selu") ∧
        xlnet_ff_activation "relu" = .ok .relu ∧
        xlnet_ff_activation "gelu" = .ok .gelu ∧
        xlnet_ff_activation "tanh" = .ok .tanh ∧
        xlnet_ff_activation "sigmoid" = .ok .sigmoid ∧
        xlnet_ff_activation "mish" = .ok .mish ∧
        xlnet_ff_activation "linear" = .ok .linear ∧
        xlnet_ff_activation "swish" = .ok .swish) :=
  ⟨by decide, xlnet_ff_activation_spec "selu" (by decide)⟩
